import Mathlib

/-!
Shallow embedding of the `llm_generation_server` / `visuallm` repository.

Modelled modules:
* `llm_generation_server/formatters/softmax_formatter.py` (`SoftmaxFormatter`)
* `llm_generation_server/next_token_prediction_component.py`
  (`NextTokenPredictionComponent`)
* `visuallm/components/mixins/metrics_mixin.py` (`MetricsMixin`)

Python floats are modelled as rationals (`ℚ`), Python lists as `List`,
insertion-ordered dicts as association lists, and raised exceptions as
`Except` errors.  Abstract methods (subclass hooks) become explicit function
parameters, assumed total: the claims concern the base-class code.
-/

namespace LlmServer

/-! ## Shared model of `heapq.nlargest(n, zip(probs, vocab), key=lambda x: x[0])`

`heapq.nlargest` is documented as `sorted(iterable, key=key, reverse=True)[:n]`,
and Python's sort is stable, so on the index-decorated list the result is the
unique permutation that is descending in the key and ascending in the original
position on ties.  That order (`nlLe` below) is total, transitive and
antisymmetric on index-decorated lists (the indices are distinct), so every
sorted permutation coincides with Python's; we realise it with a structurally
recursive insertion sort. -/

/-- Comparison used to model `nlargest` with `key=lambda x: x[0]` on
index-decorated `(prob, word)` pairs: larger probability first, ties broken by
smaller original index. -/
def nlLe (a b : (ℚ × String) × ℕ) : Bool :=
  decide (b.1.1 < a.1.1) || (decide (a.1.1 = b.1.1) && decide (a.2 ≤ b.2))

/-- Insert an element into a list sorted by `nlLe`, keeping it sorted. -/
def insertNl (a : (ℚ × String) × ℕ) :
    List ((ℚ × String) × ℕ) → List ((ℚ × String) × ℕ)
  | [] => [a]
  | b :: bs => if nlLe a b then a :: b :: bs else b :: insertNl a bs

/-- Sort by `nlLe` (descending probability, ties by ascending original
index). -/
def sortNl : List ((ℚ × String) × ℕ) → List ((ℚ × String) × ℕ)
  | [] => []
  | a :: as => insertNl a (sortNl as)

/-- The `(prob, word)` pairs decorated with their original position. -/
def indexedPairs (xs : List (ℚ × String)) : List ((ℚ × String) × ℕ) :=
  xs.enum.map (fun p => (p.2, p.1))

/-- Index-decorated model of `heapq.nlargest n xs (key := fst)`: stable sort,
descending in the probability, then truncated to `n`. -/
def nlargestIndexed (n : ℕ) (xs : List (ℚ × String)) : List ((ℚ × String) × ℕ) :=
  (sortNl (indexedPairs xs)).take n

/-- Model of `heapq.nlargest n (zip probs vocab) (key := fst)`. -/
def nlargest (n : ℕ) (xs : List (ℚ × String)) : List (ℚ × String) :=
  (nlargestIndexed n xs).map (·.1)

/-! ## `softmax_formatter.py` -/

namespace Softmax

/-- The `Continuation` dataclass of `softmax_formatter.py`. -/
structure Continuation where
  is_long : Bool
  content : String
  probs : List ℚ
deriving DecidableEq, Repr

/-- The kind-specific content dict built by `SoftmaxFormatter.format`:
`dict(possibilities=..., address=...)`. -/
structure SoftmaxContent where
  possibilities : List Continuation
  address : String
deriving DecidableEq, Repr

/-- The `FormattedContext` returned by `format` (its fields as used by
`SoftmaxFormatter.format`). -/
structure FormattedContext where
  name : String
  type : String
  content : SoftmaxContent
deriving DecidableEq, Repr

/-- State of a `SoftmaxFormatter` instance.  `name` and `changed` come from the
`Formatter` base class; `possibilities` models the private `_possibilities`
attribute behind the property. -/
structure SoftmaxFormatter where
  n_largest_tokens_to_return : ℕ
  name : String
  possibilities : List Continuation
  endpoint_url : String
  long_tokens : Bool
  changed : Bool
deriving DecidableEq, Repr

/-- The `possibilities` property setter: unconditionally sets
`self.changed = True` and stores the value. -/
def SoftmaxFormatter.set_possibilities (s : SoftmaxFormatter) (value : List Continuation) :
    SoftmaxFormatter :=
  { s with changed := true, possibilities := value }

/-- Model of `SoftmaxFormatter.assign_words_to_probs`: the `n_largest_tokens_to_return`
largest entries of `zip probs word_vocab` by probability, each mapped to a
`Continuation` with the probability scaled by `100`. -/
def SoftmaxFormatter.assign_words_to_probs (s : SoftmaxFormatter) (probs : List ℚ)
    (word_vocab : List String) : List Continuation :=
  (nlargest s.n_largest_tokens_to_return (probs.zip word_vocab)).map
    (fun x => ⟨s.long_tokens, x.2, [x.1 * 100]⟩)

/-- Model of `SoftmaxFormatter.format`: sets `self.changed = False` and returns the
`FormattedContext`.  Modelled as returning the updated state together with the
value. -/
def SoftmaxFormatter.format (s : SoftmaxFormatter) : SoftmaxFormatter × FormattedContext :=
  ({ s with changed := false },
   ⟨s.name, "softmax", ⟨s.possibilities, s.endpoint_url⟩⟩)

end Softmax

/-! ## `next_token_prediction_component.py` -/

namespace NTPC

/-- The `Continuation` dataclass of `next_token_prediction_component.py`. -/
structure Continuation where
  token : String
  prob : ℚ
deriving DecidableEq, Repr

/-- Unstructured Python exceptions that the component code can raise:
`AttributeError` when `self._context` is read before `initialize_context` ran,
`TypeError` when `zip` is applied to the uninitialized (`None`) vocabulary. -/
inductive PyError where
  | attributeError
  | typeError
deriving DecidableEq, Repr

/-- Mutable state of a `NextTokenPredictionComponent`.  `word_vocab` is `None`
until `initialize_vocab` ran; `context` is `none` while the `_context`
attribute does not exist yet (before `initialize_context`). -/
structure NTPState where
  n_largest_tokens_to_return : ℕ
  word_vocab : Option (List String)
  context : Option String
deriving DecidableEq, Repr

/-- The JSON body produced by `fetch` and `select`:
`dict(result="success", context=..., continuations=...)`. -/
structure FetchPayload where
  result : String
  context : String
  continuations : List Continuation
deriving DecidableEq, Repr

/-- Model of `NextTokenPredictionComponent.format_context` (base-class implementation):
the identity on the context string. -/
def format_context (context : String) : String :=
  context

/-- Model of `NextTokenPredictionComponent.fetch`.  The abstract hook
`get_next_token_predictions` is the parameter `predict`.  Reading
`self._context` before `initialize_context` raises `AttributeError`; the code
performs no assignment, so the state is returned unchanged. -/
def fetch (predict : String → List Continuation) (s : NTPState) :
    NTPState × Except PyError FetchPayload :=
  match s.context with
  | none => (s, .error .attributeError)
  | some c => (s, .ok ⟨"success", format_context c, predict c⟩)

/-- Model of `NextTokenPredictionComponent.select`.  The abstract hooks
`append_to_context` and `get_next_token_predictions` are the parameters
`append` and `predict`.  The posted token is appended unconditionally and the
new context stored before the success payload is built. -/
def select (append : String → String → String)
    (predict : String → List Continuation) (s : NTPState) (post_token : String) :
    NTPState × Except PyError FetchPayload :=
  match s.context with
  | none => (s, .error .attributeError)
  | some c =>
    let c' := append c post_token
    ({ s with context := some c' },
     .ok ⟨"success", format_context c', predict c'⟩)

/-- Model of `NextTokenPredictionComponent.initialize_context`. -/
def initialize_context (s : NTPState) (context : String) : NTPState :=
  { s with context := some context }

/-- Model of `NextTokenPredictionComponent.create_continuations`: `nlargest` over
`zip(probs, self.word_vocab)`; with the vocabulary still `None`, `zip` raises
`TypeError`. -/
def create_continuations (s : NTPState) (probs : List ℚ) :
    Except PyError (List Continuation) :=
  match s.word_vocab with
  | none => .error .typeError
  | some v =>
      .ok ((nlargest s.n_largest_tokens_to_return (probs.zip v)).map
        (fun x => ⟨x.2, x.1 * 100⟩))

end NTPC

/-! ## `visuallm/components/mixins/metrics_mixin.py`

Metric values are rationals; the tensors handed to probability metrics are
modelled as lists of rationals.  A Python format string such as `"{:.2f}"` is
modelled by the formatting function it denotes (`ℚ → String`).  A metric
calculation that may raise is an `Except String ℚ`. -/

namespace Metrics

/-- Tensors handed to the probability metrics (opaque to the mixin). -/
abbrev Tensor := List ℚ

/-- Model of `GeneratedTextMetric`: display format (as the function the Python format
string denotes), scalability flag and the calculation over
`(generated_text, label_text)`. -/
structure GeneratedTextMetric where
  format : ℚ → String
  scalable : Bool
  metric_calculation : String → String → Except String ℚ

/-- Model of `ProbsMetric`: display format, scalability flag and the calculation over
`(probability tensor, target-id tensor)`. -/
structure ProbsMetric where
  format : ℚ → String
  scalable : Bool
  metric_calculation : Tensor → Tensor → Except String ℚ

/-- Errors escaping `_compute_n_display_metrics_for_element`: a `KeyError`
from `self._metrics_on_probs[name]` or an exception raised by a metric
calculation. -/
inductive MetricError where
  | keyError (name : String)
  | calcError (msg : String)
deriving DecidableEq, Repr

/-- The `PieceInfo` dataclass assembled per candidate. -/
structure PieceInfo where
  pieceTitle : String
  barHeights : List ℚ
  barAnnotations : List String
  barNames : List String
deriving DecidableEq, Repr

/-- State of the mixin: the two insertion-ordered metric dicts (association
lists) and the `selected` state of the checkbox sub-element of each metric
name. -/
structure MetricsMixin where
  metrics_on_generated_text : List (String × GeneratedTextMetric)
  metrics_on_probs : List (String × ProbsMetric)
  selected : String → Bool

/-- Model of `MetricsMixin.create_ordering`: keys of the generated-text metrics dict
followed by keys of the probability metrics dict. -/
def create_ordering (metrics_on_generated_text : List (String × GeneratedTextMetric))
    (metrics_on_probs : List (String × ProbsMetric)) : List String :=
  metrics_on_generated_text.map Prod.fst ++ metrics_on_probs.map Prod.fst

/-- The `self._ordering` attribute, built at construction. -/
def MetricsMixin.ordering (m : MetricsMixin) : List String :=
  create_ordering m.metrics_on_generated_text m.metrics_on_probs

/-- Body of the `if name in self._metrics_on_generated_text` branch: look the
metric up (generated-text dict first, then probability dict — `KeyError` if in
neither) and run its calculation, yielding
`(scalable, format, raw result)`. -/
def evalMetric (m : MetricsMixin) (name generated_text label_text : String)
    (labels_encoded generated_encoded : Tensor) :
    Except MetricError (Bool × (ℚ → String) × ℚ) :=
  match m.metrics_on_generated_text.lookup name with
  | some d =>
      match d.metric_calculation generated_text label_text with
      | .error e => .error (.calcError e)
      | .ok r => .ok (d.scalable, d.format, r)
  | none =>
      match m.metrics_on_probs.lookup name with
      | some d =>
          match d.metric_calculation labels_encoded generated_encoded with
          | .error e => .error (.calcError e)
          | .ok r => .ok (d.scalable, d.format, r)
      | none => .error (.keyError name)

/-- The inner `for name in self._ordering` loop of
`_compute_n_display_metrics_for_element` for one candidate: unselected names
are skipped entirely; for a selected name the bar height is
`min (result * 100) 100` when scalable and `100` otherwise, and the annotation
is the formatted raw result.  The first raised exception aborts the loop.
Returns `(bar_heights, bar_annotations, bar_names)`. -/
def computeBars (m : MetricsMixin) (generated_text label_text : String)
    (labels_encoded generated_encoded : Tensor) :
    List String → Except MetricError (List ℚ × List String × List String)
  | [] => .ok ([], [], [])
  | name :: rest =>
    if m.selected name then
      match evalMetric m name generated_text label_text labels_encoded generated_encoded with
      | .error e => .error e
      | .ok (scalable, fmt, result) =>
        match computeBars m generated_text label_text labels_encoded generated_encoded rest with
        | .error e => .error e
        | .ok (hs, annots, ns) =>
            .ok ((if scalable then min (result * 100) 100 else (100 : ℚ)) :: hs,
              fmt result :: annots, name :: ns)
    else
      computeBars m generated_text label_text labels_encoded generated_encoded rest

/-- The outer `for ... in zip(generated_text_list, probs_encoded_list,
generated_encoded_list)` loop: one `PieceInfo` per candidate, first exception
aborts everything. -/
def computePieces (m : MetricsMixin) (label_text : String) :
    List (String × Tensor × Tensor) → Except MetricError (List PieceInfo)
  | [] => .ok []
  | (generated_text, labels_encoded, generated_encoded) :: rest =>
    match computeBars m generated_text label_text labels_encoded generated_encoded
        m.ordering with
    | .error e => .error e
    | .ok (hs, annots, ns) =>
      match computePieces m label_text rest with
      | .error e => .error e
      | .ok ps => .ok (⟨generated_text, hs, annots, ns⟩ :: ps)

/-- Model of `MetricsMixin._compute_n_display_metrics_for_element` up to the final
`element.set_piece_infos` call: Python's three-way `zip` truncates to the
shortest input. -/
def compute_display_metrics (m : MetricsMixin) (generated_text_list : List String)
    (label_text : String) (probs_encoded_list generated_encoded_list : List Tensor) :
    Except MetricError (List PieceInfo) :=
  computePieces m label_text
    (generated_text_list.zip (probs_encoded_list.zip generated_encoded_list))

/-- The piece infos displayed by the bar-chart element after the method ran:
on success `set_piece_infos` stores the new list; when an exception escapes,
`set_piece_infos` is never reached and the element keeps its old pieces. -/
def elementAfter (m : MetricsMixin) (generated_text_list : List String)
    (label_text : String) (probs_encoded_list generated_encoded_list : List Tensor)
    (element : List PieceInfo) : List PieceInfo :=
  match compute_display_metrics m generated_text_list label_text
      probs_encoded_list generated_encoded_list with
  | .ok ps => ps
  | .error _ => element

/-- Fixed-point rendering with two decimals: the denotation of the Python
format string `"{:.2f}"` for the inputs we use (nonnegative rationals whose
doubled-percent value is not a half-integer). -/
def format2f (q : ℚ) : String :=
  let n : ℤ := (q * 100 + 1 / 2).floor
  let ip := n / 100
  let fp := (n % 100).toNat
  toString ip ++ "." ++ (if fp < 10 then "0" else "") ++ toString fp

/-- Example metric calculation that raises on the candidate text `"bad"` and
yields `1/2` otherwise. -/
def failingMetric : GeneratedTextMetric :=
  ⟨format2f, true, fun gt _ => if gt = "bad" then .error "boom" else .ok (1/2)⟩

/-- Mixin holding only `failingMetric` under the name `"m1"`, every checkbox
selected. -/
def failingMixin : MetricsMixin :=
  ⟨[("m1", failingMetric)], [], fun _ => true⟩

/-- A piece representing previously displayed results of a bar-chart
element. -/
def stalePiece : PieceInfo := ⟨"stale", [], [], []⟩

/-- Scalable metric with display format `"{:.2f}"` whose raw value is
`0.37`. -/
def scalableMetric37 : GeneratedTextMetric :=
  ⟨format2f, true, fun _ _ => .ok (37/100)⟩

/-- Mixin holding only `scalableMetric37` under the name `"m"`. -/
def scalableMixin37 : MetricsMixin :=
  ⟨[("m", scalableMetric37)], [], fun _ => true⟩

/-- Non-scalable metric with display format `"{:.2f}"` whose raw value is
`0.37` (the claimed scenario). -/
def nonScalableMetric37 : ProbsMetric :=
  ⟨format2f, false, fun _ _ => .ok (37/100)⟩

/-- Mixin holding only `nonScalableMetric37` under the name `"m2"`. -/
def nonScalableMixin37 : MetricsMixin :=
  ⟨[], [("m2", nonScalableMetric37)], fun _ => true⟩

/-- Mixin with a generated-text metric `"bleu"` and a probability metric
`"nll"` whose `"bleu"` checkbox is unselected. -/
def bleuNllMixin : MetricsMixin :=
  ⟨[("bleu", ⟨format2f, true, fun _ _ => .ok (1/2)⟩)],
   [("nll", ⟨format2f, false, fun _ _ => .ok (37/100)⟩)],
   fun n => n != "bleu"⟩

end Metrics

end LlmServer
namespace LlmServer

/-! ## Helper lemmas about the `nlargest` model -/


theorem nlLe_total (a b : (ℚ × String) × ℕ) : nlLe a b = true ∨ nlLe b a = true := by
  simp only [nlLe, Bool.or_eq_true, decide_eq_true_eq, Bool.and_eq_true]
  rcases lt_trichotomy a.1.1 b.1.1 with h | h | h
  · exact Or.inr (Or.inl h)
  · rcases Nat.le_total a.2 b.2 with h2 | h2
    · exact Or.inl (Or.inr ⟨h, h2⟩)
    · exact Or.inr (Or.inr ⟨h.symm, h2⟩)
  · exact Or.inl (Or.inl h)

theorem nlLe_trans {a b c : (ℚ × String) × ℕ} (h1 : nlLe a b = true)
    (h2 : nlLe b c = true) : nlLe a c = true := by
  simp only [nlLe, Bool.or_eq_true, decide_eq_true_eq, Bool.and_eq_true] at *
  rcases h1 with h1 | ⟨h1, h1i⟩
  · rcases h2 with h2 | ⟨h2, _⟩
    · exact Or.inl (h2.trans h1)
    · exact Or.inl (h2 ▸ h1)
  · rcases h2 with h2 | ⟨h2, h2i⟩
    · exact Or.inl (h1 ▸ h2)
    · exact Or.inr ⟨h1.trans h2, h1i.trans h2i⟩

theorem insertNl_perm (a : (ℚ × String) × ℕ) (l : List ((ℚ × String) × ℕ)) :
    List.Perm (insertNl a l) (a :: l) := by
  induction l with
  | nil => simp [insertNl]
  | cons b bs ih =>
    simp only [insertNl]
    by_cases h : nlLe a b
    · simp [h]
    · simp only [h, if_neg, Bool.false_eq_true, if_false]
      exact (ih.cons b).trans (List.Perm.swap a b bs)

theorem sortNl_perm (l : List ((ℚ × String) × ℕ)) : List.Perm (sortNl l) l := by
  induction l with
  | nil => simp [sortNl]
  | cons a as ih => exact (insertNl_perm a (sortNl as)).trans (ih.cons a)

theorem mem_insertNl {x a : (ℚ × String) × ℕ} {l : List ((ℚ × String) × ℕ)} :
    x ∈ insertNl a l ↔ x = a ∨ x ∈ l := by
  rw [(insertNl_perm a l).mem_iff, List.mem_cons]

theorem insertNl_pairwise {l : List ((ℚ × String) × ℕ)}
    (h : l.Pairwise (fun x y => nlLe x y = true)) (a : (ℚ × String) × ℕ) :
    (insertNl a l).Pairwise (fun x y => nlLe x y = true) := by
  induction l with
  | nil => simp [insertNl]
  | cons b bs ih =>
    rcases List.pairwise_cons.mp h with ⟨hb, hbs⟩
    simp only [insertNl]
    by_cases hab : nlLe a b
    · rw [if_pos hab]
      refine List.pairwise_cons.mpr ⟨?_, h⟩
      intro x hx
      rcases List.mem_cons.mp hx with rfl | hx
      · exact hab
      · exact nlLe_trans hab (hb x hx)
    · rw [if_neg hab]
      refine List.pairwise_cons.mpr ⟨?_, ih hbs⟩
      intro x hx
      rcases mem_insertNl.mp hx with rfl | hx
      · rcases nlLe_total b x with hbx | hxb
        · exact hbx
        · exact absurd hxb hab
      · exact hb x hx

theorem sortNl_pairwise (l : List ((ℚ × String) × ℕ)) :
    (sortNl l).Pairwise (fun x y => nlLe x y = true) := by
  induction l with
  | nil => simp [sortNl]
  | cons a as ih => exact insertNl_pairwise ih a

theorem length_sortNl (l : List ((ℚ × String) × ℕ)) :
    (sortNl l).length = l.length :=
  (sortNl_perm l).length_eq


theorem indexedPairs_map_idx (xs : List (ℚ × String)) :
    (indexedPairs xs).map (·.2) = List.range xs.length := by
  simp only [indexedPairs, List.map_map]
  have : ((·.2 : (ℚ × String) × ℕ → ℕ) ∘ fun p : ℕ × (ℚ × String) => (p.2, p.1))
      = Prod.fst := rfl
  rw [this, List.enum_map_fst]

theorem sortNl_indexedPairs_idx_nodup (xs : List (ℚ × String)) :
    ((sortNl (indexedPairs xs)).map (·.2)).Nodup := by
  have hperm : List.Perm ((sortNl (indexedPairs xs)).map (·.2))
      ((indexedPairs xs).map (·.2)) := (sortNl_perm (indexedPairs xs)).map _
  rw [hperm.nodup_iff, indexedPairs_map_idx]
  exact List.nodup_range xs.length

theorem nlargestIndexed_pairwise (n : ℕ) (xs : List (ℚ × String)) :
    (nlargestIndexed n xs).Pairwise
      (fun a b => b.1.1 < a.1.1 ∨ (a.1.1 = b.1.1 ∧ a.2 < b.2)) := by
  have hsorted := sortNl_pairwise (indexedPairs xs)
  have hnodup : (sortNl (indexedPairs xs)).Pairwise (fun a b => a.2 ≠ b.2) :=
    List.pairwise_map.mp (sortNl_indexedPairs_idx_nodup xs)
  have hcomb := hsorted.and hnodup
  refine ((hcomb.sublist (List.take_sublist n _)).imp ?_)
  rintro a b ⟨hle, hne⟩
  simp only [nlLe, Bool.or_eq_true, decide_eq_true_eq, Bool.and_eq_true] at hle
  rcases hle with h | ⟨heq, hidx⟩
  · exact Or.inl h
  · exact Or.inr ⟨heq, lt_of_le_of_ne hidx hne⟩

theorem mem_nlargestIndexed {n : ℕ} {xs : List (ℚ × String)}
    {a : (ℚ × String) × ℕ} (h : a ∈ nlargestIndexed n xs) : a.1 ∈ xs := by
  have h1 : a ∈ sortNl (indexedPairs xs) :=
    (List.take_sublist n _).mem h
  have h2 : a ∈ indexedPairs xs := (sortNl_perm _).mem_iff.mp h1
  simp only [indexedPairs, List.mem_map] at h2
  obtain ⟨p, hp, rfl⟩ := h2
  exact List.getElem?_mem (List.mem_enum_iff_getElem?.mp hp)

theorem mem_nlargest {n : ℕ} {xs : List (ℚ × String)} {p : ℚ × String}
    (h : p ∈ nlargest n xs) : p ∈ xs := by
  simp only [nlargest, List.mem_map] at h
  obtain ⟨a, ha, rfl⟩ := h
  exact mem_nlargestIndexed ha

theorem length_nlargest (n : ℕ) (xs : List (ℚ × String)) :
    (nlargest n xs).length = min n xs.length := by
  simp [nlargest, nlargestIndexed, length_sortNl, indexedPairs]

/-! ## Helper lemmas about the metrics loop -/


theorem computeBars_ok {m : Metrics.MetricsMixin} {gt label : String}
    {le ge : Metrics.Tensor} :
    ∀ {names : List String} {hs : List ℚ} {annots ns : List String},
    Metrics.computeBars m gt label le ge names = .ok (hs, annots, ns) →
    ns = names.filter (fun n => m.selected n)
    ∧ hs.length = ns.length ∧ annots.length = ns.length := by
  intro names
  induction names with
  | nil =>
    intro hs annots ns h
    simp only [Metrics.computeBars, Except.ok.injEq, Prod.mk.injEq] at h
    obtain ⟨h1, h2, h3⟩ := h
    subst h1; subst h2; subst h3
    simp
  | cons name rest ih =>
    intro hs annots ns h
    simp only [Metrics.computeBars] at h
    split at h
    · -- selected: the ite condition m.selected name = true holds
      rename_i hsel
      split at h
      · exact Except.noConfusion h
      · rename_i sc f r heval
        split at h
        · exact Except.noConfusion h
        · rename_i hs' annots' ns' hrest
          simp only [Except.ok.injEq, Prod.mk.injEq] at h
          obtain ⟨h1, h2, h3⟩ := h
          subst h1; subst h2; subst h3
          obtain ⟨g1, g2, g3⟩ := ih hrest
          refine ⟨?_, by simp [g2], by simp [g3]⟩
          rw [List.filter_cons_of_pos (by simp [hsel]), g1]
    · rename_i hsel
      obtain ⟨g1, g2, g3⟩ := ih h
      refine ⟨?_, g2, g3⟩
      rw [List.filter_cons_of_neg (by simpa using hsel), g1]

theorem computePieces_ok {m : Metrics.MetricsMixin} {label : String} :
    ∀ {cands : List (String × Metrics.Tensor × Metrics.Tensor)}
      {pieces : List Metrics.PieceInfo},
    Metrics.computePieces m label cands = .ok pieces →
    ∀ p ∈ pieces,
      p.barNames = m.ordering.filter (fun n => m.selected n)
      ∧ p.barHeights.length = p.barNames.length
      ∧ p.barAnnotations.length = p.barNames.length := by
  intro cands
  induction cands with
  | nil =>
    intro pieces h
    simp only [Metrics.computePieces, Except.ok.injEq] at h
    subst h
    intro p hp
    exact absurd hp (List.not_mem_nil p)
  | cons cand rest ih =>
    intro pieces h
    obtain ⟨gt, lenc, genc⟩ := cand
    simp only [Metrics.computePieces] at h
    split at h
    · exact Except.noConfusion h
    · rename_i hs annots ns hbars
      split at h
      · exact Except.noConfusion h
      · rename_i ps hrest
        simp only [Except.ok.injEq] at h
        subst h
        intro p hp
        rcases List.mem_cons.mp hp with rfl | hp
        · obtain ⟨g1, g2, g3⟩ := computeBars_ok hbars
          exact ⟨g1, g2, g3⟩
        · exact ih hrest p hp

end LlmServer
namespace LlmServer

/-! ## Claim theorems -/


/-- C1: for every probability vector and vocabulary of equal length,
`assign_words_to_probs` (and the equivalent `create_continuations`) returns at
most `n_largest_tokens_to_return` continuations, sorted descending by
probability with ties broken by vocabulary order, each probability being the
source probability times `100`; in particular for vocabulary
`["a", "b", "c"]`, probs `[0.1, 0.7, 0.2]`, `N = 2` the result is
`[{token := "b", prob := 70}, {token := "c", prob := 20}]`. -/
theorem C1_thm (s : Softmax.SoftmaxFormatter) (ntp : NTPC.NTPState)
    (probs : List ℚ) (vocab : List String)
    (hlen : probs.length = vocab.length)
    (hv : ntp.word_vocab = some vocab)
    (hn : ntp.n_largest_tokens_to_return = s.n_largest_tokens_to_return) :
    (s.assign_words_to_probs probs vocab).length ≤ s.n_largest_tokens_to_return
    ∧ s.assign_words_to_probs probs vocab
        = (nlargestIndexed s.n_largest_tokens_to_return (probs.zip vocab)).map
            (fun x => ⟨s.long_tokens, x.1.2, [x.1.1 * 100]⟩)
    ∧ (nlargestIndexed s.n_largest_tokens_to_return (probs.zip vocab)).Pairwise
        (fun a b => b.1.1 < a.1.1 ∨ (a.1.1 = b.1.1 ∧ a.2 < b.2))
    ∧ (s.assign_words_to_probs probs vocab).Pairwise
        (fun a b => ∀ qa ∈ a.probs, ∀ qb ∈ b.probs, qb ≤ qa)
    ∧ (∀ c ∈ s.assign_words_to_probs probs vocab,
        ∃ q, (q, c.content) ∈ probs.zip vocab ∧ c.probs = [q * 100])
    ∧ (NTPC.create_continuations ntp probs).map
        (List.map (fun c => Softmax.Continuation.mk s.long_tokens c.token [c.prob]))
        = .ok (s.assign_words_to_probs probs vocab)
    ∧ NTPC.create_continuations ⟨2, some ["a", "b", "c"], none⟩
        [1/10, 7/10, 2/10] = .ok [⟨"b", 70⟩, ⟨"c", 20⟩] := by
  have heq : s.assign_words_to_probs probs vocab
      = (nlargestIndexed s.n_largest_tokens_to_return (probs.zip vocab)).map
          (fun x => ⟨s.long_tokens, x.1.2, [x.1.1 * 100]⟩) := by
    simp only [Softmax.SoftmaxFormatter.assign_words_to_probs, nlargest, List.map_map]
    rfl
  refine ⟨?_, heq, nlargestIndexed_pairwise _ _, ?_, ?_, ?_, ?_⟩
  · simp only [Softmax.SoftmaxFormatter.assign_words_to_probs, List.length_map, length_nlargest]
    exact min_le_left _ _
  · rw [heq, List.pairwise_map]
    refine (nlargestIndexed_pairwise _ _).imp ?_
    rintro a b hab
    have hba : b.1.1 ≤ a.1.1 := by
      rcases hab with h | ⟨h, _⟩
      · exact le_of_lt h
      · exact le_of_eq h.symm
    intro qa hqa qb hqb
    simp only [List.mem_singleton] at hqa hqb
    subst hqa; subst hqb
    exact mul_le_mul_of_nonneg_right hba (by norm_num)
  · intro c hc
    simp only [Softmax.SoftmaxFormatter.assign_words_to_probs, List.mem_map] at hc
    obtain ⟨x, hx, rfl⟩ := hc
    exact ⟨x.1, by simpa using mem_nlargest hx, rfl⟩
  · rw [NTPC.create_continuations, hv, hn]
    simp only [Except.map, List.map_map, heq, nlargest]
    rfl
  · with_unfolding_all rfl


/-- Witness for C1 at the scenario input. -/
theorem C1_witness :
    (Softmax.SoftmaxFormatter.assign_words_to_probs ⟨2, "sf", [], "u", false, false⟩
        [1/10, 7/10, 2/10] ["a", "b", "c"]).length ≤ 2
    ∧ Softmax.SoftmaxFormatter.assign_words_to_probs ⟨2, "sf", [], "u", false, false⟩
        [1/10, 7/10, 2/10] ["a", "b", "c"]
        = (nlargestIndexed 2 (([1/10, 7/10, 2/10] : List ℚ).zip ["a", "b", "c"])).map
            (fun x => ⟨false, x.1.2, [x.1.1 * 100]⟩)
    ∧ (nlargestIndexed 2 (([1/10, 7/10, 2/10] : List ℚ).zip ["a", "b", "c"])).Pairwise
        (fun a b => b.1.1 < a.1.1 ∨ (a.1.1 = b.1.1 ∧ a.2 < b.2))
    ∧ (Softmax.SoftmaxFormatter.assign_words_to_probs ⟨2, "sf", [], "u", false, false⟩
        [1/10, 7/10, 2/10] ["a", "b", "c"]).Pairwise
        (fun a b => ∀ qa ∈ a.probs, ∀ qb ∈ b.probs, qb ≤ qa)
    ∧ (∀ c ∈ Softmax.SoftmaxFormatter.assign_words_to_probs ⟨2, "sf", [], "u", false, false⟩
        [1/10, 7/10, 2/10] ["a", "b", "c"],
        ∃ q, (q, c.content) ∈ ([1/10, 7/10, 2/10] : List ℚ).zip ["a", "b", "c"]
          ∧ c.probs = [q * 100])
    ∧ (NTPC.create_continuations ⟨2, some ["a", "b", "c"], none⟩ [1/10, 7/10, 2/10]).map
        (List.map (fun c => Softmax.Continuation.mk false c.token [c.prob]))
        = .ok (Softmax.SoftmaxFormatter.assign_words_to_probs ⟨2, "sf", [], "u", false, false⟩
            [1/10, 7/10, 2/10] ["a", "b", "c"])
    ∧ NTPC.create_continuations ⟨2, some ["a", "b", "c"], none⟩
        [1/10, 7/10, 2/10] = .ok [⟨"b", 70⟩, ⟨"c", 20⟩] :=
  C1_thm ⟨2, "sf", [], "u", false, false⟩ ⟨2, some ["a", "b", "c"], none⟩
    [1/10, 7/10, 2/10] ["a", "b", "c"] rfl rfl rfl


/-- Counterexample to C2: with `len probs = 1 ≠ 2 = len vocab`,
`assign_words_to_probs` raises no error at all; it silently returns the
truncated result built from `zip`. -/
theorem C2_counterexample :
    ([(1:ℚ)/2].length ≠ (["a", "b"] : List String).length)
    ∧ Softmax.SoftmaxFormatter.assign_words_to_probs ⟨2, "f", [], "u", false, false⟩
        [1/2] ["a", "b"] = [⟨false, "a", [50]⟩] :=
  ⟨by decide, by with_unfolding_all rfl⟩

/-- C2 (amended): `assign_words_to_probs` performs no length check; with
mismatched lengths it silently truncates to the shorter input (`zip`
semantics), returning exactly `min N (min (len probs) (len vocab))`
continuations, all drawn from `zip probs vocab` — no `DimensionMismatch`
error exists in the code. -/
theorem C2_amended (s : Softmax.SoftmaxFormatter) (probs : List ℚ)
    (vocab : List String) (hne : probs.length ≠ vocab.length) :
    (s.assign_words_to_probs probs vocab).length
      = min s.n_largest_tokens_to_return (min probs.length vocab.length)
    ∧ ∀ c ∈ s.assign_words_to_probs probs vocab,
        ∃ q, (q, c.content) ∈ probs.zip vocab ∧ c.probs = [q * 100] := by
  constructor
  · simp [Softmax.SoftmaxFormatter.assign_words_to_probs, List.length_map,
      length_nlargest, List.length_zip]
  · intro c hc
    simp only [Softmax.SoftmaxFormatter.assign_words_to_probs, List.mem_map] at hc
    obtain ⟨x, hx, rfl⟩ := hc
    exact ⟨x.1, by simpa using mem_nlargest hx, rfl⟩

/-- Witness for C2 (amended) at a mismatched-length input. -/
theorem C2_witness :
    (([(1:ℚ)/2].length ≠ (["a", "b"] : List String).length))
    ∧ ((Softmax.SoftmaxFormatter.assign_words_to_probs ⟨2, "f", [], "u", false, false⟩
          [1/2] ["a", "b"]).length
        = min 2 (min [(1:ℚ)/2].length (["a", "b"] : List String).length)
      ∧ ∀ c ∈ Softmax.SoftmaxFormatter.assign_words_to_probs ⟨2, "f", [], "u", false, false⟩
          [1/2] ["a", "b"],
          ∃ q, (q, c.content) ∈ [(1:ℚ)/2].zip ["a", "b"] ∧ c.probs = [q * 100]) :=
  ⟨by decide, C2_amended ⟨2, "f", [], "u", false, false⟩ [1/2] ["a", "b"] (by decide)⟩

/-- Counterexample to C3: starting from `changed = true`, `format` leaves the
flag `false`, so the flag after `format` differs from the flag before. -/
theorem C3_counterexample :
    ((⟨2, "f", [], "u", false, true⟩ : Softmax.SoftmaxFormatter).format.1.changed = false)
    ∧ ((⟨2, "f", [], "u", false, true⟩ : Softmax.SoftmaxFormatter).changed = true) :=
  ⟨rfl, rfl⟩

/-- C3 (amended): `SoftmaxFormatter.format` itself clears the dirty flag —
it unconditionally sets `changed := false` while building the serialized
`FormattedContext` from the current possibilities. -/
theorem C3_amended (s : Softmax.SoftmaxFormatter) :
    s.format.1.changed = false
    ∧ s.format.1 = { s with changed := false }
    ∧ s.format.2 = ⟨s.name, "softmax", ⟨s.possibilities, s.endpoint_url⟩⟩ :=
  ⟨rfl, rfl, rfl⟩

/-- Counterexample to C4: an element with `possibilities = []` and
`changed = false` is marked dirty by assigning the equal payload `[]`. -/
theorem C4_counterexample :
    ((⟨2, "f", [], "u", false, false⟩ : Softmax.SoftmaxFormatter).set_possibilities []).changed = true
    ∧ (⟨2, "f", [], "u", false, false⟩ : Softmax.SoftmaxFormatter).possibilities = []
    ∧ (⟨2, "f", [], "u", false, false⟩ : Softmax.SoftmaxFormatter).changed = false :=
  ⟨rfl, rfl, rfl⟩

/-- C4 (amended): the `possibilities` setter always marks the element dirty,
even when the assigned payload equals the current one; there is no equality
check. -/
theorem C4_amended (s : Softmax.SoftmaxFormatter) (v : List Softmax.Continuation) :
    (s.set_possibilities v).changed = true
    ∧ (s.set_possibilities v).possibilities = v :=
  ⟨rfl, rfl⟩

/-- C5: `fetch` performs no mutation of component state, and two consecutive
`fetch` calls with no intervening `select` return identical payloads. -/
theorem C5_fetch_pure (predict : String → List NTPC.Continuation) (s : NTPC.NTPState) :
    (NTPC.fetch predict s).1 = s
    ∧ (NTPC.fetch predict ((NTPC.fetch predict s).1)).2 = (NTPC.fetch predict s).2 := by
  have h1 : (NTPC.fetch predict s).1 = s := by
    cases hs : s.context <;> simp [NTPC.fetch, hs]
  exact ⟨h1, by rw [h1]⟩

/-- Counterexample to C6: with the vocabulary still uninitialized (`None`)
but the context initialized, `fetch` succeeds with a success payload instead
of failing with an `UninitializedVocabulary` error. -/
theorem C6_counterexample :
    (NTPC.fetch (fun _ => []) ⟨10, none, some "x"⟩).2
      = Except.ok ⟨"success", "x", []⟩ :=
  rfl

/-- C6 (amended): before `initialize_context`, `fetch` and `select` fail with
an unhandled `AttributeError` exception (not a structured
`UninitializedContext` result), and the vocabulary is never checked: with an
uninitialized vocabulary but initialized context, both `fetch` and `select`
return a success payload. -/
theorem C6_amended (predict : String → List NTPC.Continuation)
    (append : String → String → String) (s₁ s₂ : NTPC.NTPState)
    (t c : String) (h1 : s₁.context = none)
    (hv : s₂.word_vocab = none) (hc : s₂.context = some c) :
    (NTPC.fetch predict s₁).2 = .error .attributeError
    ∧ (NTPC.select append predict s₁ t).2 = .error .attributeError
    ∧ (NTPC.fetch predict s₂).2 = .ok ⟨"success", NTPC.format_context c, predict c⟩
    ∧ (NTPC.select append predict s₂ t).2
        = .ok ⟨"success", NTPC.format_context (append c t), predict (append c t)⟩ := by
  refine ⟨?_, ?_, ?_, ?_⟩
  · simp [NTPC.fetch, h1]
  · simp [NTPC.select, h1]
  · simp [NTPC.fetch, hc]
  · simp [NTPC.select, hc]

/-- Witness for C6 (amended) at concrete states. -/
theorem C6_witness :
    (NTPC.fetch (fun _ => []) ⟨10, none, none⟩).2 = .error .attributeError
    ∧ (NTPC.select (fun c t => c ++ t) (fun _ => []) ⟨10, none, none⟩ "t").2
        = .error .attributeError
    ∧ (NTPC.fetch (fun _ => []) ⟨10, none, some "x"⟩).2
        = .ok ⟨"success", NTPC.format_context "x", (fun _ => ([] : List NTPC.Continuation)) "x"⟩
    ∧ (NTPC.select (fun c t => c ++ t) (fun _ => []) ⟨10, none, some "x"⟩ "t").2
        = .ok ⟨"success", NTPC.format_context ((fun (c t : String) => c ++ t) "x" "t"),
            (fun _ => ([] : List NTPC.Continuation)) ((fun (c t : String) => c ++ t) "x" "t")⟩ :=
  C6_amended (fun _ => []) (fun c t => c ++ t) ⟨10, none, none⟩ ⟨10, none, some "x"⟩
    "t" "x" rfl rfl rfl

/-- Counterexample to C7: `"zzz"` is not among the offered continuations for
context `"x"`, yet `select` appends it and returns a success payload with the
mutated context. -/
theorem C7_counterexample :
    ("zzz" ∉ ([⟨"a", (50 : ℚ)⟩] : List NTPC.Continuation).map NTPC.Continuation.token)
    ∧ NTPC.select (fun c t => c ++ " " ++ t) (fun _ => [⟨"a", (50 : ℚ)⟩])
        ⟨10, some ["a"], some "x"⟩ "zzz"
      = (⟨10, some ["a"], some "x zzz"⟩,
         .ok ⟨"success", "x zzz", [⟨"a", (50 : ℚ)⟩]⟩) :=
  ⟨by decide, rfl⟩

/-- C7 (amended): `select` performs no validation whatever: every posted
token is handed to `append_to_context`, the new context is stored, and a
success payload is returned — invalid tokens are silently appended. -/
theorem C7_amended (append : String → String → String)
    (predict : String → List NTPC.Continuation) (s : NTPC.NTPState)
    (c token : String) (hc : s.context = some c) :
    NTPC.select append predict s token
      = ({ s with context := some (append c token) },
         .ok ⟨"success", NTPC.format_context (append c token),
           predict (append c token)⟩) := by
  simp [NTPC.select, hc]

/-- Witness for C7 (amended) at a concrete invalid token. -/
theorem C7_witness :
    NTPC.select (fun c t => c ++ " " ++ t) (fun _ => [⟨"a", (50 : ℚ)⟩])
        ⟨10, some ["a"], some "x"⟩ "zzz"
      = ({ (⟨10, some ["a"], some "x"⟩ : NTPC.NTPState) with
            context := some ((fun c t => c ++ " " ++ t) "x" "zzz") },
         .ok ⟨"success", NTPC.format_context ((fun c t => c ++ " " ++ t) "x" "zzz"),
           (fun _ => [⟨"a", (50 : ℚ)⟩]) ((fun c t => c ++ " " ++ t) "x" "zzz")⟩) :=
  C7_amended (fun c t => c ++ " " ++ t) (fun _ => [⟨"a", (50 : ℚ)⟩])
    ⟨10, some ["a"], some "x"⟩ "x" "zzz" rfl


/-- Counterexample to C8: the metric raising on candidate `"bad"` aborts the
whole batch — the computation for candidate `"good"` (which succeeds in
isolation, third conjunct) is never produced and the display element keeps its
stale pieces. -/
theorem C8_counterexample :
    Metrics.compute_display_metrics Metrics.failingMixin ["bad", "good"] "lbl"
        [[], []] [[], []] = .error (.calcError "boom")
    ∧ Metrics.elementAfter Metrics.failingMixin ["bad", "good"] "lbl" [[], []] [[], []]
        [Metrics.stalePiece] = [Metrics.stalePiece]
    ∧ Metrics.compute_display_metrics Metrics.failingMixin ["good"] "lbl" [[]] [[]]
      = .ok [⟨"good", [50], ["0.50"], ["m1"]⟩] := by
  refine ⟨?_, ?_, ?_⟩ <;> with_unfolding_all rfl

/-- C8 (amended): a metric calculation error for one candidate propagates
raw (no `MetricComputationError` tagging with metric name or candidate index)
and aborts the computation of every remaining candidate; the display element
is left with its previous pieces because `set_piece_infos` is never
reached. -/
theorem C8_amended (m : Metrics.MetricsMixin) (label gt : String)
    (lenc genc : Metrics.Tensor)
    (rest : List (String × Metrics.Tensor × Metrics.Tensor))
    (e e' : Metrics.MetricError)
    (gtl : List String) (pel gel : List Metrics.Tensor)
    (element : List Metrics.PieceInfo)
    (h1 : Metrics.computeBars m gt label lenc genc m.ordering = .error e)
    (h2 : Metrics.compute_display_metrics m gtl label pel gel = .error e') :
    Metrics.computePieces m label ((gt, lenc, genc) :: rest) = .error e
    ∧ Metrics.elementAfter m gtl label pel gel element = element := by
  constructor
  · simp [Metrics.computePieces, h1]
  · simp [Metrics.elementAfter, h2]

/-- Witness for C8 (amended) with the failing metric. -/
theorem C8_witness :
    Metrics.computePieces Metrics.failingMixin "lbl" [("bad", [], []), ("good", [], [])]
      = .error (.calcError "boom")
    ∧ Metrics.elementAfter Metrics.failingMixin ["bad", "good"] "lbl" [[], []] [[], []]
        [Metrics.stalePiece] = [Metrics.stalePiece] :=
  C8_amended Metrics.failingMixin "lbl" "bad" [] [] [("good", [], [])]
    (.calcError "boom") (.calcError "boom") ["bad", "good"] [[], []] [[], []]
    [Metrics.stalePiece] (by with_unfolding_all rfl) (by with_unfolding_all rfl)

/-- C9: every piece assembled by `_compute_n_display_metrics_for_element`
contains bars for exactly the currently selected metrics in `create_ordering`
order — unselected metrics are omitted entirely — and `barHeights`,
`barAnnotations`, `barNames` always have equal length. -/
theorem C9_thm (m : Metrics.MetricsMixin) (gtl : List String) (label : String)
    (pel gel : List Metrics.Tensor) (pieces : List Metrics.PieceInfo)
    (h : Metrics.compute_display_metrics m gtl label pel gel = .ok pieces) :
    ∀ p ∈ pieces,
      p.barNames
        = (Metrics.create_ordering m.metrics_on_generated_text m.metrics_on_probs).filter
            (fun n => m.selected n)
      ∧ p.barHeights.length = p.barNames.length
      ∧ p.barAnnotations.length = p.barNames.length :=
  computePieces_ok h

/-- Witness for C9: the `"bleu"` checkbox unselected, so the piece omits
`"bleu"` entirely and shows only `"nll"`. -/
theorem C9_witness :
    (⟨"gen", [100], ["0.37"], ["nll"]⟩ : Metrics.PieceInfo).barNames
      = (Metrics.create_ordering Metrics.bleuNllMixin.metrics_on_generated_text
          Metrics.bleuNllMixin.metrics_on_probs).filter
          (fun n => Metrics.bleuNllMixin.selected n)
    ∧ (⟨"gen", [100], ["0.37"], ["nll"]⟩ : Metrics.PieceInfo).barHeights.length
        = (⟨"gen", [100], ["0.37"], ["nll"]⟩ : Metrics.PieceInfo).barNames.length
    ∧ (⟨"gen", [100], ["0.37"], ["nll"]⟩ : Metrics.PieceInfo).barAnnotations.length
        = (⟨"gen", [100], ["0.37"], ["nll"]⟩ : Metrics.PieceInfo).barNames.length :=
  C9_thm Metrics.bleuNllMixin ["gen"] "lbl" [[]] [[]]
    [⟨"gen", [100], ["0.37"], ["nll"]⟩] (by with_unfolding_all rfl)
    ⟨"gen", [100], ["0.37"], ["nll"]⟩ (List.mem_singleton_self _)

/-- Counterexample to C10: a scalable metric with raw value `0.37` gets bar
height `min (0.37 * 100) 100 = 37`, not the claimed clamp of the raw value to
`[0, 100]` (which would be `0.37`). -/
theorem C10_counterexample :
    Metrics.computeBars Metrics.scalableMixin37 "g" "l" [] []
        Metrics.scalableMixin37.ordering = .ok ([37], ["0.37"], ["m"])
    ∧ (37 : ℚ) ≠ max 0 (min (37/100) 100) := by
  constructor
  · with_unfolding_all rfl
  · have h1 : min ((37 : ℚ)/100) 100 = 37/100 := min_eq_left (by norm_num)
    have h2 : max (0 : ℚ) (37/100) = 37/100 := max_eq_right (by norm_num)
    rw [h1, h2]
    norm_num

/-- C10 (amended): for a selected metric the bar height is
`min (raw * 100) 100` when scalable (scaled by 100 and capped above, no lower
clamp) and exactly `100` when non-scalable, while the annotation is always the
raw value rendered by the display format; the claimed scenario (non-scalable,
format `"{:.2f}"`, raw `0.37` → height `100`, annotation `"0.37"`) holds. -/
theorem C10_amended (m : Metrics.MetricsMixin) (name gt label : String)
    (lenc genc : Metrics.Tensor) (rest : List String)
    (sc : Bool) (f : ℚ → String) (r : ℚ)
    (hs : List ℚ) (annots ns : List String)
    (hsel : m.selected name = true)
    (heval : Metrics.evalMetric m name gt label lenc genc = .ok (sc, f, r))
    (hrest : Metrics.computeBars m gt label lenc genc rest = .ok (hs, annots, ns)) :
    Metrics.computeBars m gt label lenc genc (name :: rest)
      = .ok ((if sc then min (r * 100) 100 else (100 : ℚ)) :: hs,
          f r :: annots, name :: ns)
    ∧ Metrics.computeBars Metrics.nonScalableMixin37 "g" "l" [] []
        Metrics.nonScalableMixin37.ordering = .ok ([100], ["0.37"], ["m2"]) := by
  constructor
  · simp [Metrics.computeBars, hsel, heval, hrest]
  · with_unfolding_all rfl

/-- Witness for C10 (amended) at the scalable metric with raw value
`0.37`. -/
theorem C10_witness :
    Metrics.computeBars Metrics.scalableMixin37 "g" "l" [] [] ["m"]
      = .ok ((if true then min ((37 : ℚ)/100 * 100) 100 else (100 : ℚ)) :: [],
          Metrics.format2f (37/100) :: [], "m" :: [])
    ∧ Metrics.computeBars Metrics.nonScalableMixin37 "g" "l" [] []
        Metrics.nonScalableMixin37.ordering = .ok ([100], ["0.37"], ["m2"]) :=
  C10_amended Metrics.scalableMixin37 "m" "g" "l" [] [] [] true Metrics.format2f
    (37/100) [] [] [] rfl (by with_unfolding_all rfl) rfl

end LlmServer
